import Mathlib

/-!
Shallow embedding of the JJKCARDGAME repository (battle engine, deck builder
and balance tuner) used to check the natural-language specification against
the code.  Python integers are modelled as `Int`, Python floats as exact
rationals `ℚ` (every concrete computation appearing in the theorems below is
far from any floating-point rounding boundary, so the rational model and the
float computation agree on every comparison performed), Python `None` as
`Option`, and a raised Python exception as the `Except.error` branch of an
`Except` value.

The file is organized as: definitions (translated from the source files
`character.py`, `player.py`, `battle.py`, `deck.py`, `ultimate_abilities.py`
and `balance_simulator.py`), followed by the theorems checking the claims.
-/

namespace JJK

/-! ## Characters (`character.py`, `base_types.py`) -/

/-- A status effect carried by a character
(`character.py`, `self.status_effects`); the battle engine only ever reads
its `prevents_healing` flag (`Character.regenerate_health`). -/
structure StatusEffect where
  prevents_healing : Bool
deriving DecidableEq, Repr

/-- State of one `Character` instance (`base_types.BaseCharacter` plus the
fields added in `character.Character.__init__`).  `ultimate_damage` is the
value `parse_ultimate_damage` stored at construction time. -/
structure Character where
  name : String
  variant : String
  cost : Int
  atk : Int
  def_val : Int
  effect : String
  max_health : Int
  current_health : Int
  energy : Int
  ultimate_energy_cost : Int
  ultimate_damage : Int
  status_effects : List StatusEffect
deriving DecidableEq, Repr

namespace Character

/-- `Character.take_damage` (character.py):
`actual_damage = min(amount, self.current_health);
self.current_health -= actual_damage; return actual_damage`.
Returns (actual damage, updated character). -/
def take_damage (self : Character) (amount : Int) : Int × Character :=
  let actual_damage := min amount self.current_health
  (actual_damage, { self with current_health := self.current_health - actual_damage })

/-- `Character.is_alive` (character.py): `self.current_health > 0`. -/
def is_alive (self : Character) : Bool :=
  self.current_health > 0

/-- `Character.heal` (character.py):
`self.def_val = min(self.def_val, self.def_val + amount)`;
no other attribute is assigned. -/
def heal (self : Character) (amount : Int) : Character :=
  { self with def_val := min self.def_val (self.def_val + amount) }

/-- `Character.add_energy` (character.py): `min(self.energy + 1, 10)`. -/
def add_energy (self : Character) : Character :=
  { self with energy := min (self.energy + 1) 10 }

/-- `Character.use_ultimate` (character.py): if `energy >=
ultimate_energy_cost`, debit the cost and return
`target.take_damage(self.ultimate_damage)`; otherwise return 0.
Returns (damage dealt, updated self, updated target). -/
def use_ultimate (self target : Character) : Int × Character × Character :=
  if self.energy ≥ self.ultimate_energy_cost then
    let self' := { self with energy := self.energy - self.ultimate_energy_cost }
    let (dmg, target') := target.take_damage self.ultimate_damage
    (dmg, self', target')
  else
    (0, self, target)

/-- `Character.regenerate_health` (character.py): full heal at end of turn
unless dead or a status effect prevents healing. -/
def regenerate_health (self : Character) : Character :=
  if self.is_alive ∧ ¬ (self.status_effects.any (·.prevents_healing)) then
    { self with current_health := self.max_health }
  else
    self

end Character

/-! ## Ultimate abilities, character-side dispatch
(`ultimate_abilities.UltimateAbilities` and
`character.Character.get_ultimate_ability`) -/

namespace Ultimate

/-- Value of one entry of an ultimate's `effects` dict
(`ultimate_abilities.py`): a number, a boolean flag, a nested dict, or a
list of dicts (`conditional_flat_damage`). -/
inductive EffVal where
  | num (q : ℚ)
  | flag (b : Bool)
  | strv (s : String)
  | dict (entries : List (String × EffVal))
  | listv (entries : List EffVal)

/-- `ultimate_abilities.UltimateAbility` as successfully constructed by the
per-character static methods: `__init__(self, name, damage_multiplier=1.0,
effects=None)`. -/
structure UltimateAbility where
  name : String
  damage_multiplier : ℚ
  effects : List (String × EffVal)

/-- Python `str.lower()` on the ASCII names and variants appearing in the
ability tables, written via `List.map` so that it evaluates inside the
kernel. -/
def pyLower (s : String) : String :=
  ⟨s.data.map Char.toLower⟩

/-- Python's `needle in haystack` substring test on strings: prefix check. -/
def strStarts : List Char → List Char → Bool
  | [], _ => true
  | _ :: _, [] => false
  | a :: as, b :: bs => a = b && strStarts as bs

/-- Python's `needle in haystack` substring test on strings. -/
def strHasSub (hay needle : List Char) : Bool :=
  match hay with
  | [] => needle.isEmpty
  | _ :: t => strStarts needle hay || strHasSub t needle

/-- `needle in variant` where variant is first lowercased
(`variant = (char.variant or "").lower()`). -/
def varHas (variant needle : String) : Bool :=
  strHasSub (pyLower variant).data needle.data

/-- `UltimateAbilities.gojo_satoru_ultimate` (ultimate_abilities.py). -/
def gojo_satoru_ultimate (variant : String) : UltimateAbility :=
  if varHas variant "young" then
    ⟨"Reversal Red", 5/2, [("flat_damage", .num 300), ("single_target", .flag true)]⟩
  else if varHas variant "shibuya" then
    ⟨"Hollow Purple", 0, [("destroy_primary_target", .flag true), ("aoe_damage", .num 200)]⟩
  else if varHas variant "toji incident" then
    ⟨"Hollow Purple", 0, [("flat_damage", .num 400), ("single_target", .flag true)]⟩
  else if varHas variant "honored one" || varHas variant "culling games" then
    ⟨"Hollow Purple: Divine Wrath", 0,
      [("flat_damage", .num 500), ("single_target", .flag true),
       ("conditional_aoe", .dict [("damage_if_kill", .num 250)])]⟩
  else
    ⟨"Hollow Purple", 5/2, [("ignore_defense", .flag true)]⟩

/-- `UltimateAbilities.fushiguro_megumi_ultimate` (ultimate_abilities.py). -/
def fushiguro_megumi_ultimate (variant : String) : UltimateAbility :=
  if varHas variant "child" then
    ⟨"Shadow Step", 0, [("dodge_next_attack", .flag true), ("temp_atk_boost", .num 50)]⟩
  else if varHas variant "detention center" then
    ⟨"Divine Dog: Totality", 0, [("buff_token", .num 150), ("immediate_attack", .flag true)]⟩
  else if varHas variant "shibuya" then
    ⟨"Chimera Shadow Garden", 0, [("double_token_stats", .flag true)]⟩
  else if varHas variant "mahoraga" then
    ⟨"Eight-Handled Sword Divergent Sila Divine General", 0,
      [("summon", .dict [("name", .strv "Mahoraga"), ("duration", .num 2),
        ("on_leave_aoe_damage", .num 300)])]⟩
  else
    ⟨"Chimera Shadow Garden", 3/2, []⟩

/-- `UltimateAbilities.kugisaki_nobara_ultimate` (ultimate_abilities.py). -/
def kugisaki_nobara_ultimate (variant : String) : UltimateAbility :=
  if varHas variant "child" then
    ⟨"Simple Strike", 6/5, []⟩
  else if varHas variant "exchange" then
    ⟨"Hairpin: Resonance", 0, [("flat_damage", .num 250), ("stun", .num 1)]⟩
  else if varHas variant "shinjuku" || varHas variant "showdown" then
    ⟨"Hairpin: Final Nail", 0, [("flat_damage", .num 350), ("stun", .num 1)]⟩
  else
    ⟨"Hairpin", 3/2, []⟩

/-- `UltimateAbilities.nanami_kento_ultimate` (ultimate_abilities.py). -/
def nanami_kento_ultimate (variant : String) : UltimateAbility :=
  if varHas variant "grade 1" then
    ⟨"Ratio Strike", 0,
      [("conditional_flat_damage",
         .listv [.dict [("condition", .strv "target_def>target_atk"), ("damage", .num 350)]]),
       ("base_damage", .num 300)]⟩
  else if varHas variant "ratio master" then
    ⟨"Overtime Finisher", 2, [("ignore_defense_if_condition", .flag true)]⟩
  else if varHas variant "shibuya incident" then
    ⟨"Last Ratio Strike", 0, [("flat_damage", .num 400), ("self_def_debuff", .num 100)]⟩
  else
    ⟨"Overtime", 2, [("critical_hit", .flag true)]⟩

/-- `UltimateAbilities.kenjaku_ultimate` (ultimate_abilities.py). -/
def kenjaku_ultimate (variant : String) : UltimateAbility :=
  if varHas variant "golden era" then
    ⟨"Ancient Knowledge", 0, [("reduce_cost", .num 1)]⟩
  else if varHas variant "cursed womb" then
    ⟨"Cursed Womb", 0,
      [("summon", .dict [("name", .strv "Cursed Spirit"), ("atk", .num 300),
        ("def_", .num 300), ("duration", .num 3)])]⟩
  else if varHas variant "shibuya" then
    ⟨"Shibuya Incident", 0, [("flat_damage", .num 500), ("heal_self", .num 200)]⟩
  else if varHas variant "culling games" then
    ⟨"Culling Games", 0, [("aoe_damage", .num 300), ("gain_energy", .num 2)]⟩
  else
    ⟨"Ancient Knowledge", 1, []⟩

/-- `UltimateAbilities.naoya_zenin_ultimate` (ultimate_abilities.py). -/
def naoya_zenin_ultimate (variant : String) : UltimateAbility :=
  if varHas variant "zenin clan heir" then
    ⟨"Warp Strike", 0, [("flat_damage", .num 300), ("switch_with_target", .flag true)]⟩
  else if varHas variant "projection sorcery master" then
    ⟨"Time Compression Strike", 2, [("ignore_defense_if_continuous", .flag true)]⟩
  else
    ⟨"Projection Sorcery", 1, []⟩

/-- `Character.get_ultimate_ability` (character.py): look the lowercased
character name up in the `ultimate_methods` map and invoke the matching
`UltimateAbilities` static method with the character's variant. -/
def char_get_ultimate_ability (name variant : String) : Option UltimateAbility :=
  let n := pyLower name
  if n = "gojo satoru" then some (gojo_satoru_ultimate variant)
  else if n = "fushiguro megumi" then some (fushiguro_megumi_ultimate variant)
  else if n = "kugisaki nobara" then some (kugisaki_nobara_ultimate variant)
  else if n = "nanami kento" then some (nanami_kento_ultimate variant)
  else if n = "kenjaku" then some (kenjaku_ultimate variant)
  else if n = "naoya zenin" then some (naoya_zenin_ultimate variant)
  else none

/-- Python `int()` on an exact rational: truncation toward zero. -/
def pyInt (q : ℚ) : Int :=
  q.num / (q.den : Int)

/-- `Character.parse_ultimate_damage` (character.py):
`int(self.atk * ultimate.damage_multiplier)` if an ultimate is found by
`get_ultimate_ability`, else `self.atk`. -/
def parse_ultimate_damage (name variant : String) (atk : Int) : Int :=
  match char_get_ultimate_ability name variant with
  | some ult => pyInt ((atk : ℚ) * ult.damage_multiplier)
  | none => atk

end Ultimate

/-! ## Players (`player.py`) -/

/-- State of one `Player` (`player.py`); the player's `Deck` object
(`deck.py`) is flattened into its remaining `deck` list and its
`graveyard` list. -/
structure Player where
  name : String
  deck : List Character
  graveyard : List Character
  hand : List Character
  field : List Character
  life_points : Int
  energy : Int
  max_energy : Int
deriving DecidableEq, Repr

namespace Player

/-- `Deck.draw(count)` followed by `Player.draw_cards` (player.py, deck.py):
an empty deck yields no cards and leaves hand untouched; otherwise up to
`count` cards move from the front of the deck to the end of the hand. -/
def draw_cards (self : Player) (count : Nat) : Player :=
  let drawn := self.deck.take count
  if drawn.isEmpty then self
  else { self with deck := self.deck.drop count, hand := self.hand ++ drawn }

/-- `Player.play_card` (player.py): succeeds iff the card is in hand, its
cost is within the player's energy and the field has fewer than 5
characters; on success the card moves hand → field and the energy is
debited.  (Python membership and removal use object identity; every card in
a hand is a distinct `Character` instance, which `List.erase` of one
occurrence models.) -/
def play_card (self : Player) (character : Character) : Player × Bool :=
  if character ∈ self.hand ∧ character.cost ≤ self.energy ∧ self.field.length < 5 then
    ({ self with
        hand := self.hand.erase character
        field := self.field ++ [character]
        energy := self.energy - character.cost }, true)
  else
    (self, false)

/-- `Player.take_damage` (player.py): life points clamp at 0. -/
def take_damage (self : Player) (amount : Int) : Player :=
  { self with life_points := max 0 (self.life_points - amount) }

/-- `Player.add_energy` (player.py) with the default amount 1. -/
def add_energy (self : Player) : Player :=
  { self with energy := min self.max_energy (self.energy + 1) }

end Player

/-! ## Battle engine (`battle.py`) -/

namespace Battle

/-- The damage/ability statistics a `Battle` accumulates
(`self.damage_stats`, `self.ability_usage_tracker` and the `times_played`
counter of `self.card_damage_tracker`), as association lists keyed by card
name. -/
structure Stats where
  direct_damage : List (String × Int)
  ultimate_damage : List (String × Int)
  effect_damage : List (String × Int)
  total_damage : Int
  times_used : List (String × Nat)
  times_played : List (String × Nat)
deriving DecidableEq, Repr

/-- `d[k] = d.get(k, 0) + v` on an association list with `Int` values. -/
def bumpI (l : List (String × Int)) (k : String) (v : Int) : List (String × Int) :=
  if l.any (fun e => e.1 = k) then
    l.map (fun e => if e.1 = k then (e.1, e.2 + v) else e)
  else
    l ++ [(k, v)]

/-- `d[k] = d.get(k, 0) + v` on an association list with `Nat` values. -/
def bumpN (l : List (String × Nat)) (k : String) (v : Nat) : List (String × Nat) :=
  if l.any (fun e => e.1 = k) then
    l.map (fun e => if e.1 = k then (e.1, e.2 + v) else e)
  else
    l ++ [(k, v)]

/-- The three damage buckets of `Battle.damage_stats`. -/
inductive DamageType where
  | direct
  | ultimate
  | effect
deriving DecidableEq, Repr

/-- `Battle._update_damage_stats` (battle.py): ignore non-positive damage;
otherwise add the damage to the named bucket and to `total_damage`, and for
the `ultimate_damage` bucket also increment the attacker's
`times_used` ability-usage count. -/
def update_damage_stats (stats : Stats) (attacker_name : String) (damage : Int)
    (damage_type : DamageType) : Stats :=
  if damage ≤ 0 then stats
  else
    let stats :=
      match damage_type with
      | .direct => { stats with direct_damage := bumpI stats.direct_damage attacker_name damage }
      | .ultimate => { stats with ultimate_damage := bumpI stats.ultimate_damage attacker_name damage }
      | .effect => { stats with effect_damage := bumpI stats.effect_damage attacker_name damage }
    let stats := { stats with total_damage := stats.total_damage + damage }
    match damage_type with
    | .ultimate => { stats with times_used := bumpN stats.times_used attacker_name 1 }
    | _ => stats

/-- The keyword arguments `UltimateAbility.__init__` accepts
(`ultimate_abilities.py`: `__init__(self, name, damage_multiplier=1.0,
effects=None)`). -/
def acceptedKwargs : List String :=
  ["name", "damage_multiplier", "effects"]

/-- Constructing an `UltimateAbility(name=…, damage_multiplier=…, …)` with a
list of additional keyword-argument names: Python raises `TypeError` as soon
as an argument name outside `__init__`'s signature is passed. -/
def mkUltimateAbilityKw (name : String) (damage_multiplier : ℚ)
    (extraKwargs : List String) : Except String Ultimate.UltimateAbility :=
  match extraKwargs.find? (fun k => !(acceptedKwargs.contains k)) with
  | some k => .error ("TypeError: UltimateAbility.__init__() got an unexpected keyword argument " ++ k)
  | none => .ok ⟨name, damage_multiplier, []⟩

/-- Module-level `get_ultimate_ability` (ultimate_abilities.py), the lookup
used by the battle engine: the function body first builds its
`ultimate_abilities` dict literal, eagerly constructing the three
`UltimateAbility(..., cooldown=…)` / `(..., status_effects=…, cooldown=…)`
entries, and only then looks up `(character_name, variant)`.  Because the
constructor accepts no `cooldown` or `status_effects` keyword, building the
dict raises `TypeError` on every call. -/
def get_ultimate_ability (character_name : String) (variant : String) :
    Except String (Option Ultimate.UltimateAbility) := do
  let gojo ← mkUltimateAbilityKw "Hollow Purple" (5/2) ["cooldown"]
  let yuji ← mkUltimateAbilityKw "Black Flash" 2 ["cooldown"]
  let megumi ← mkUltimateAbilityKw "Divine Dogs" (9/5) ["status_effects", "cooldown"]
  let table : List (String × List (String × Ultimate.UltimateAbility)) :=
    [("Gojo Satoru", [("Standard", gojo)]),
     ("Yuji Itadori", [("Standard", yuji)]),
     ("Megumi Fushiguro", [("Standard", megumi)])]
  pure (((table.lookup character_name).getD []).lookup variant)

/-- Index of the element Python's `max(l, key=f)` returns: the first element
attaining the maximal key (later elements replace the current best only when
strictly greater). -/
def pyMaxIdxAux (f : Character → Int) : List Character → Nat → Nat → Int → Nat
  | [], _, bi, _ => bi
  | c :: rest, i, bi, bv =>
    if f c > bv then pyMaxIdxAux f rest (i + 1) i (f c)
    else pyMaxIdxAux f rest (i + 1) bi bv

/-- Index version of `max(l, key=f)`; `none` on the empty list. -/
def pyMaxIdx (f : Character → Int) : List Character → Option Nat
  | [] => none
  | c :: rest => some (pyMaxIdxAux f rest 1 0 (f c))

/-- The regular-combat tail of the per-attacker combat block of
`Battle._process_actions` (battle.py): attack the defender's
highest-attack field character, or the defender directly when their field
is empty; record the damage under `direct_damage`; then
`attacker.add_energy()`. -/
def regularCombat (attacker : Character) (opponent : Player) (stats : Stats) :
    Character × Player × Stats :=
  match pyMaxIdx (fun c => c.atk) opponent.field with
  | some ti =>
    match opponent.field.get? ti with
    | some target =>
      let damage := attacker.atk
      let (actual_damage, target') := target.take_damage damage
      let stats' := update_damage_stats stats attacker.name actual_damage .direct
      let opponent' := { opponent with field := opponent.field.set ti target' }
      (attacker.add_energy, opponent', stats')
    | none => (attacker.add_energy, opponent, stats)
  | none =>
    let damage := attacker.atk
    let opponent' := opponent.take_damage damage
    let stats' := update_damage_stats stats attacker.name damage .direct
    (attacker.add_energy, opponent', stats')

/-- One attacker's combat block in `Battle._process_actions` (battle.py),
including its `try/except`: the first statement of the `try` body calls
`get_ultimate_ability`, whose `TypeError` is caught by the `except` and
turns the whole action into a no-op (`continue`).  In the (unreachable)
non-raising case: if an ultimate exists, the opponent's field is non-empty
and the attacker's energy covers the ultimate cost, the ultimate targets
the defending field character with the highest current health; a positive
damage result is recorded under `ultimate_damage` and skips the basic
attack (`continue`, which also skips `add_energy`); a zero damage result
falls through to regular combat with the attacker's energy already
debited. -/
def combatStep (attacker : Character) (opponent : Player) (stats : Stats) :
    Character × Player × Stats :=
  match get_ultimate_ability attacker.name attacker.variant with
  | .error _ => (attacker, opponent, stats)
  | .ok ultimate =>
    if ultimate.isSome ∧ opponent.field ≠ [] ∧
        attacker.energy ≥ attacker.ultimate_energy_cost then
      match pyMaxIdx (fun c => c.current_health) opponent.field with
      | some ti =>
        match opponent.field.get? ti with
        | some target =>
          let (damage, attacker', target') := attacker.use_ultimate target
          let opponent' := { opponent with field := opponent.field.set ti target' }
          if damage > 0 then
            (attacker', opponent', update_damage_stats stats attacker.name damage .ultimate)
          else
            regularCombat attacker' opponent' stats
        | none => regularCombat attacker opponent stats
      | none => regularCombat attacker opponent stats
    else
      regularCombat attacker opponent stats

/-- The combat phase of `Battle._process_actions`: iterate the attackers of
the active player's field in order, threading the opponent and the
statistics. -/
def combatPhase : List Character → Player → Stats → List Character × Player × Stats
  | [], opponent, stats => ([], opponent, stats)
  | a :: rest, opponent, stats =>
    let (a', opponent', stats') := combatStep a opponent stats
    let (rest', opponent'', stats'') := combatPhase rest opponent' stats'
    (a' :: rest', opponent'', stats'')

/-- One iteration of the card-playing loop of `Battle._process_actions`
(battle.py): `if energy >= cost and len(field) < 5`, call `play_card`
(whose boolean result is not inspected), then unconditionally increment the
per-turn placement counter, and bump `times_played` when the card name is
tracked. -/
def playStep (active : Player) (placements : Nat) (stats : Stats) (card : Character) :
    Player × Nat × Stats :=
  if card.cost ≤ active.energy ∧ active.field.length < 5 then
    let (active', _played) := active.play_card card
    let stats' :=
      if stats.times_played.any (fun e => e.1 = card.name) then
        { stats with times_played := bumpN stats.times_played card.name 1 }
      else stats
    (active', placements + 1, stats')
  else
    (active, placements, stats)

/-- The `for card in playable_cards[:2]` loop body of
`Battle._process_actions`, folded over the attempted cards. -/
def playCards : Player → Nat → Stats → List Character → Player × Nat × Stats
  | active, placements, stats, [] => (active, placements, stats)
  | active, placements, stats, card :: rest =>
    let (active', placements', stats') := playStep active placements stats card
    playCards active' placements' stats' rest

/-- The card-playing phase of `Battle._process_actions` (battle.py):
`playable_cards = [card for card in hand if card.cost <= energy]`, then
attempt the first two, in hand order. -/
def playPhase (active : Player) (placements : Nat) (stats : Stats) :
    Player × Nat × Stats :=
  playCards active placements stats
    ((active.hand.filter (fun c => c.cost ≤ active.energy)).take 2)

/-- `Battle._process_actions` (battle.py): the playing phase followed by the
combat phase over the (possibly extended) field of the active player. -/
def process_actions (active opponent : Player) (placements : Nat) (stats : Stats) :
    Player × Player × Nat × Stats :=
  let (a1, placements', stats1) := playPhase active placements stats
  let (field', opponent', stats2) := combatPhase a1.field opponent stats1
  ({ a1 with field := field' }, opponent', placements', stats2)

/-- `Battle.process_turn` (battle.py): draw phase (one card if the deck is
non-empty), energy gain, action phase, end-phase regeneration of the active
player's field, and the game-end check `opponent.life_points <= 0`. -/
def process_turn (active opponent : Player) (placements : Nat) (stats : Stats) :
    Player × Player × Nat × Stats × Bool :=
  let a0 := if active.deck.length > 0 then active.draw_cards 1 else active
  let a1 := a0.add_energy
  let (a2, opponent', placements', stats') := process_actions a1 opponent placements stats
  let a3 := { a2 with field := a2.field.map Character.regenerate_health }
  (a3, opponent', placements', stats', opponent'.life_points ≤ 0)

/-- The whole-battle state of `Battle` that `simulate_battle` threads:
both players, the per-turn placement counters, and the statistics. -/
structure BattleState where
  p1 : Player
  p2 : Player
  placements1 : Nat
  placements2 : Nat
  stats : Stats
deriving DecidableEq, Repr

/-- The winner returned by `Battle.simulate_battle`. -/
inductive Winner where
  | p1
  | p2
deriving DecidableEq, Repr

/-- One iteration of the `while self.current_turn <= max_turns` loop of
`Battle.simulate_battle` (battle.py): reset the placement counters, process
player 1's turn (player 1 wins immediately if it ends the battle), then
player 2's turn. -/
def battlePair (st : BattleState) : Sum Winner BattleState :=
  let (a, b, plc1, stats1, won1) := process_turn st.p1 st.p2 0 st.stats
  if won1 then .inl .p1
  else
    let (b', a', plc2, stats2, won2) := process_turn b a 0 stats1
    if won2 then .inl .p2
    else .inr { p1 := a', p2 := b', placements1 := plc1, placements2 := plc2, stats := stats2 }

/-- Up to `n` further turn-pairs of `Battle.simulate_battle`: either some
player wins inside the loop, or the state after the loop is reached. -/
def runPairs : BattleState → Nat → Sum Winner BattleState
  | st, 0 => .inr st
  | st, n + 1 =>
    match battlePair st with
    | .inl w => .inl w
    | .inr st' => runPairs st' n

/-- `Battle.simulate_battle` (battle.py): 50 turn-pairs maximum; if the loop
completes with no winner, `return self.player1 if self.player1.life_points >
self.player2.life_points else self.player2`. -/
def simulate_battle (st : BattleState) : Winner :=
  match runPairs st 50 with
  | .inl w => w
  | .inr final =>
    if final.p1.life_points > final.p2.life_points then .p1 else .p2

end Battle

/-! ## Deck construction (`deck.py`) -/

namespace Deck

/-- One row of the card pool passed to `Deck.build_initial_deck`, after
`standardize_column_names`. -/
structure PoolCard where
  name : String
  variant : String
  cost : Int
  atk : Int
  def_ : Int
deriving DecidableEq, Repr

/-- `Deck.create_character_from_data` (deck.py) for a pool row with no
`Effect`/`Ultimate Move`/`Ultimate Cost` columns: `Character(name, variant,
cost, atk, def_, '', '', 1)`; the constructor sets health to `def_`, energy
to 0, and `ultimate_damage` via `parse_ultimate_damage`. -/
def create_character_from_data (r : PoolCard) : Character :=
  { name := r.name
    variant := r.variant
    cost := r.cost
    atk := r.atk
    def_val := r.def_
    effect := ""
    max_health := r.def_
    current_health := r.def_
    energy := 0
    ultimate_energy_cost := 1
    ultimate_damage := Ultimate.parse_ultimate_damage r.name r.variant r.atk
    status_effects := [] }

/-- State of `Deck.build_initial_deck` specialized to a pool holding a
single card (so Python's `random.choice` is deterministic):
the `selected_cards` list and the single card's `card_counts` entry. -/
structure BuildState where
  selected : List Character
  count : Nat
deriving DecidableEq, Repr

/-- The cost-distribution phase's inner `while cards_added < target_count
and attempts < max_attempts` loop of `Deck.build_initial_deck` (deck.py)
for a single-card bucket: each attempt picks the lone card; it is added
while its duplicate count is below 3.  The first argument is the remaining
number of attempts (`max_attempts - attempts`), the second the number of
cards still needed (`target_count - cards_added`). -/
def distLoop (pool : PoolCard) : Nat → Nat → BuildState → BuildState
  | 0, _, s => s
  | _ + 1, 0, s => s
  | fuel + 1, needed + 1, s =>
    if s.count < 3 then
      distLoop pool fuel needed
        { selected := s.selected ++ [create_character_from_data pool], count := s.count + 1 }
    else
      distLoop pool fuel (needed + 1) s

/-- The cost-distribution phase of `Deck.build_initial_deck` for a pool
holding a single cost-1 card: the cost-1 bucket wants 8 cards with at most
`8 * 3 = 24` attempts; every other cost bucket is empty and is skipped with
a warning. -/
def distPhase (pool : PoolCard) : BuildState :=
  distLoop pool 24 8 { selected := [], count := 0 }

/-- One iteration of the relaxed fill loop `while len(selected_cards) <
self.size` of `Deck.build_initial_deck` (deck.py) for a single-card pool:
`available_costs` is the non-empty `[cost]`, `random.choice` returns the
lone card, and it is appended only while its duplicate count is below 3. -/
def fillStep (pool : PoolCard) (s : BuildState) : BuildState :=
  if s.count < 3 then
    { selected := s.selected ++ [create_character_from_data pool], count := s.count + 1 }
  else
    s

/-- The single-card pool of the degraded-path scenario: one cost-1 card with
ATK 100 and DEF 100. -/
def lonePool : PoolCard :=
  ⟨"Lone", "Standard", 1, 100, 100⟩

end Deck

/-! ## Balance simulator (`balance_simulator.py`) -/

namespace Balance

/-- One row of the card table (`self.cards_df`): the columns the tuner
reads and writes (`Name`, `Variant`, `Cost`, `ATK`, `DEF`). -/
structure Card where
  name : String
  variant : String
  cost : Int
  atk : Int
  def_ : Int
deriving DecidableEq, Repr

/-- Floor of an exact rational, computed directly on the normalized
numerator/denominator so that it evaluates inside the kernel. -/
def ratFloor (q : ℚ) : Int :=
  Int.fdiv q.num q.den

/-- Python 3 `round` on an exact rational: round to nearest, ties to even
(banker's rounding). -/
def pyRound (q : ℚ) : Int :=
  let f := ratFloor q
  let r := q - (f : ℚ)
  if r < 1/2 then f
  else if 1/2 < r then f + 1
  else if (f % 2 = 0) then f else f + 1

/-- `abs` on an exact rational, written out so that it evaluates inside the
kernel. -/
def pyAbs (q : ℚ) : ℚ :=
  if q < 0 then -q else q

/-- `BalanceSimulator.round_to_nearest_50`:
`max(100, round(value / 50) * 50)`. -/
def round_to_nearest_50 (value : ℚ) : Int :=
  max 100 (pyRound (value / 50) * 50)

/-- `BalanceSimulator.get_max_total_stats`: `cost * 200`. -/
def get_max_total_stats (cost : Int) : Int :=
  cost * 200

/-- The per-card body of the stat-normalization pass of
`BalanceSimulator.adjust_card_stats` (this identical block runs both before
and after the per-card tuning loop): if `ATK + DEF` exceeds
`get_max_total_stats(cost)`, scale both down by `max_allowed / total_stats`
and round each to the nearest multiple of 50 with floor 100. -/
def normalizeCard (c : Card) : Card :=
  let total_stats := c.atk + c.def_
  let max_allowed := get_max_total_stats c.cost
  if total_stats > max_allowed then
    let scale_factor : ℚ := (max_allowed : ℚ) / (total_stats : ℚ)
    { c with
      atk := round_to_nearest_50 ((c.atk : ℚ) * scale_factor)
      def_ := round_to_nearest_50 ((c.def_ : ℚ) * scale_factor) }
  else
    c

/-- The normalization pass applied to the whole working table. -/
def normalizePass (t : List Card) : List Card :=
  t.map normalizeCard

/-- The cost buckets `range(1, 7)` over which
`BalanceSimulator.get_cost_distribution` reports shares. -/
def costBuckets : List Int :=
  [1, 2, 3, 4, 5, 6]

/-- `BalanceSimulator.get_cost_distribution` (balance_simulator.py), as the
share of bucket `cost`: `len(df[df['Cost'] == cost]) / total_cards`. -/
def costShare (t : List Card) (cost : Int) : ℚ :=
  ((t.filter (fun c => c.cost = cost)).length : ℚ) / (t.length : ℚ)

/-- The simulated distribution the tuner checks before proposing a cost
change (balance_simulator.py, `adjust_card_stats`):
`new_dist = get_cost_distribution(cards_df)` with `1/len(cards_df)` moved
from bucket `current_cost` to bucket `current_cost + delta`. -/
def simShare (t : List Card) (current_cost delta bucket : Int) : ℚ :=
  costShare t bucket
    + (if bucket = current_cost then -(1 / (t.length : ℚ)) else 0)
    + (if bucket = current_cost + delta then 1 / (t.length : ℚ) else 0)

/-- `COST_DISTRIBUTION_TOLERANCE` (balance_simulator.py). -/
def COST_DISTRIBUTION_TOL : ℚ :=
  1/10

/-- `ULTIMATE_POWER_FACTOR` (balance_simulator.py). -/
def ULTIMATE_POWER_FACTOR : ℚ :=
  3/10

/-- The `cost_change_allowed` check of `adjust_card_stats`
(balance_simulator.py): every bucket of the simulated distribution must be
within `COST_DISTRIBUTION_TOLERANCE` of the original table's
distribution. -/
def cost_change_allowed (orig t : List Card) (current_cost delta : Int) : Bool :=
  costBuckets.all (fun bucket =>
    pyAbs (simShare t current_cost delta bucket - costShare orig bucket)
      ≤ COST_DISTRIBUTION_TOL)

/-- The contribution of one `effects` entry to the power score of
`BalanceSimulator.evaluate_ultimate_power` (balance_simulator.py).  The
`flat_damage` and `heal_self` arithmetic cases only ever receive numeric
values from the ability table; the non-numeric fallback 1/10 is
unreachable. -/
def effectScore : String × Ultimate.EffVal → ℚ
  | ("flat_damage", .num v) => min (v / 1000) (3/10)
  | ("aoe_damage", _) => 3/10
  | ("heal_self", .num v) => min (v / 500) (1/5)
  | ("ignore_defense", _) => 1/5
  | ("stun", _) => 1/5
  | ("summon", _) => 3/10
  | _ => 1/10

/-- `BalanceSimulator.evaluate_ultimate_power` (balance_simulator.py):
find the first table row whose `Name` matches, build a `Character` from it
and ask for its ultimate via `Character.get_ultimate_ability`; score the
ultimate's damage multiplier (capped at 0.4) plus its per-effect
contributions, clamp to 1, and derive a recommended energy cost. -/
def evaluate_ultimate_power (t : List Card) (card_name : String) : ℚ × Int :=
  match t.find? (fun c => c.name = card_name) with
  | none => (0, 1)
  | some card =>
    match Ultimate.char_get_ultimate_ability card.name card.variant with
    | none => (0, 1)
    | some ult =>
      let power_score := min (ult.damage_multiplier / 3) (2/5)
      let power_score := power_score + (ult.effects.map effectScore).sum
      let recommended_cost : Int :=
        if power_score > 7/10 then 3 else if power_score > 2/5 then 2 else 1
      (min power_score 1, recommended_cost)

/-- One per-card record of the iteration statistics fed to
`adjust_card_stats` (`iteration_stats['card_stats']`): the key
`"Name (Variant)"` (kept here as the name/variant pair the code formats it
from and parses it back to) plus the `wins`/`plays`/`total_damage`
counters. -/
structure CardStats where
  name : String
  variant : String
  wins : Int
  plays : Int
  total_damage : Int
deriving DecidableEq, Repr

/-- One entry of the `adjustments` list `adjust_card_stats` accumulates. -/
structure Adjustment where
  card_idx : Nat
  cost_adjust : Int
  atk_adjust : Int
  def_adjust : Int
deriving DecidableEq, Repr

/-- The inner `calculate_safe_stat_adjustment` of `adjust_card_stats`
(balance_simulator.py): if the proposed new total exceeds `max_allowed`,
return the rounded, scaled adjustment *deltas*; otherwise return the
proposals unchanged. -/
def calculate_safe_stat_adjustment (max_allowed current_atk current_def
    proposed_atk_adj proposed_def_adj : Int) : Int × Int :=
  let new_total := (current_atk + proposed_atk_adj) + (current_def + proposed_def_adj)
  if new_total > max_allowed then
    let scale_factor : ℚ := (max_allowed : ℚ) / (new_total : ℚ)
    (round_to_nearest_50 ((current_atk : ℚ) + (proposed_atk_adj : ℚ) * scale_factor) - current_atk,
     round_to_nearest_50 ((current_def : ℚ) + (proposed_def_adj : ℚ) * scale_factor) - current_def)
  else
    (proposed_atk_adj, proposed_def_adj)

/-- The per-card scanning body of the tuning loop of
`adjust_card_stats` (balance_simulator.py), producing at most one
adjustment per statistics entry.  (The `card_id in ["Player 1", "Player 2"]`
guard can never match an id of the form `"Name (Variant)"` and is omitted;
`orig` is `self.original_cards`, `t` the working table *after* the leading
normalization pass, against which all distribution checks and card lookups
run, since the adjustments are only applied after the loop.) -/
def scanEntry (orig t : List Card) (target_win_rate win_rate_tolerance : ℚ)
    (e : CardStats) : Option Adjustment :=
  if e.plays < 5 then none
  else
    match t.findIdx? (fun c => c.name = e.name ∧ c.variant = e.variant) with
    | none => none
    | some card_idx =>
      match t.get? card_idx with
      | none => none
      | some current_card =>
        let current_cost := current_card.cost
        let max_allowed := get_max_total_stats current_cost
        let win_rate : ℚ := (e.wins : ℚ) / (e.plays : ℚ)
        let avg_damage : ℚ := (e.total_damage : ℚ) / (e.plays : ℚ)
        let ultimate_power := (evaluate_ultimate_power t e.name).1
        let expected_win_rate := target_win_rate * (1 + ultimate_power * ULTIMATE_POWER_FACTOR)
        let win_rate_diff := win_rate - expected_win_rate
        if pyAbs win_rate_diff > win_rate_tolerance then
          if win_rate_diff > 0 then
            if current_cost < 6 then
              if cost_change_allowed orig t current_cost 1 = true ∧
                  avg_damage > (current_cost : ℚ) * (100 * (1 - ultimate_power)) then
                some ⟨card_idx, 1, 0, 0⟩
              else
                let (new_atk, new_def) :=
                  calculate_safe_stat_adjustment max_allowed current_card.atk current_card.def_ 0 0
                if new_atk < current_card.atk ∨ new_def < current_card.def_ then
                  some ⟨card_idx, 0, new_atk - current_card.atk, new_def - current_card.def_⟩
                else none
            else none
          else
            if current_cost > 1 then
              if cost_change_allowed orig t current_cost (-1) = true ∧
                  avg_damage < (current_cost : ℚ) * (75 * (1 - ultimate_power)) then
                some ⟨card_idx, -1, 0, 0⟩
              else
                let (new_atk, new_def) :=
                  calculate_safe_stat_adjustment max_allowed current_card.atk current_card.def_ 0 0
                if new_atk > current_card.atk ∨ new_def > current_card.def_ then
                  some ⟨card_idx, 0, new_atk - current_card.atk, new_def - current_card.def_⟩
                else none
            else none
        else none

/-- Application of one accumulated adjustment (`adjust_card_stats`,
balance_simulator.py): a non-zero cost adjustment clamps the new cost to
[1, 6]; non-zero stat adjustments are added and re-rounded to the nearest
50 with floor 100. -/
def applyAdjustment (t : List Card) (a : Adjustment) : List Card :=
  match t.get? a.card_idx with
  | none => t
  | some c =>
    let c := if a.cost_adjust ≠ 0 then
        { c with cost := max 1 (min 6 (c.cost + a.cost_adjust)) } else c
    let c := if a.atk_adjust ≠ 0 then
        { c with atk := round_to_nearest_50 ((c.atk + a.atk_adjust : Int) : ℚ) } else c
    let c := if a.def_adjust ≠ 0 then
        { c with def_ := round_to_nearest_50 ((c.def_ + a.def_adjust : Int) : ℚ) } else c
    t.set a.card_idx c

/-- `BalanceSimulator.adjust_card_stats` (balance_simulator.py): the leading
normalization pass, the per-card scan producing the adjustment list, the
batch application of all adjustments, and the final normalization pass. -/
def adjust_card_stats (orig t : List Card) (stats : List CardStats)
    (target_win_rate win_rate_tolerance : ℚ) : List Card :=
  let t1 := normalizePass t
  let adjustments := stats.filterMap (scanEntry orig t1 target_win_rate win_rate_tolerance)
  let t2 := adjustments.foldl applyAdjustment t1
  normalizePass t2

/-- Best-balance tracking state of `BalanceSimulator`:
`best_balance_score` starts as `float('inf')` (modelled by
`(⊤ : WithTop ℚ)`) and `best_balance` as `None`
(`BalanceSimulator.__init__`). -/
structure BestTrack where
  best_balance_score : WithTop ℚ
  best_balance : Option (List Card)

/-- One iteration of the best-tracking logic in
`BalanceSimulator.run_balance_iterations`: given the iteration's computed
balance score and the current working table,
`if balance_score > self.best_balance_score: best_balance_score :=
balance_score; best_balance := cards_df.copy()`. -/
def stepIteration (s : BestTrack) (it : ℚ × List Card) : BestTrack :=
  if (it.1 : WithTop ℚ) > s.best_balance_score then
    { best_balance_score := (it.1 : WithTop ℚ), best_balance := some it.2 }
  else
    s

/-- `BalanceSimulator.run_balance_iterations`, restricted to its
best-configuration tracking and return value: starting from
`best_balance_score = float('inf')`, `best_balance = None`, fold the
per-iteration (score, working-table) pairs and return `self.best_balance`. -/
def run_balance_iterations (its : List (ℚ × List Card)) : Option (List Card) :=
  (its.foldl stepIteration ⟨⊤, none⟩).best_balance

end Balance

/-! ## Concrete instances used by the theorems -/

/-- An attacker satisfying every eligibility condition of the ultimate path:
`(Gojo Satoru, Standard)` is an entry of the battle-side ultimate table, and
its energy (10) covers its ultimate cost (1). -/
def gojoAttacker : Character :=
  ⟨"Gojo Satoru", "Standard", 5, 400, 600, "", 600, 600, 10, 1, 1000, []⟩

/-- A living defending field character. -/
def livingDefender : Character :=
  ⟨"Mahito", "Standard", 2, 200, 300, "", 300, 250, 0, 1, 200, []⟩

/-- A field character whose current health has reached 0. -/
def deadDefender : Character :=
  ⟨"Nanami Kento", "Standard", 3, 300, 400, "", 400, 0, 0, 1, 600, []⟩

/-- A defending player with one living field character. -/
def defendingPlayer : Player :=
  ⟨"Player 2", [], [], [], [livingDefender], 2000, 1, 10⟩

/-- Empty battle statistics. -/
def emptyStats : Battle.Stats :=
  ⟨[], [], [], 0, [], []⟩

/-- A battle state in which player 2 has a health-0 character on the field
and player 1 has an attacker on the field. -/
def deadCharState : Battle.BattleState :=
  { p1 := ⟨"Player 1", [], [], [], [gojoAttacker], 2000, 1, 10⟩
    p2 := ⟨"Player 2", [], [], [], [deadDefender], 2000, 1, 10⟩
    placements1 := 0
    placements2 := 0
    stats := emptyStats }

/-- A battle state that runs to the 50-turn cap with both players at their
starting 2000 life points: empty decks, hands and fields. -/
def cappedState : Battle.BattleState :=
  { p1 := ⟨"Player 1", [], [], [], [], 2000, 1, 10⟩
    p2 := ⟨"Player 2", [], [], [], [], 2000, 1, 10⟩
    placements1 := 0
    placements2 := 0
    stats := emptyStats }

/-- The final state the capped battle reaches: only the energies have grown
to their cap of 10. -/
def cappedFinal : Battle.BattleState :=
  { p1 := ⟨"Player 1", [], [], [], [], 2000, 10, 10⟩
    p2 := ⟨"Player 2", [], [], [], [], 2000, 10, 10⟩
    placements1 := 0
    placements2 := 0
    stats := emptyStats }

namespace Balance

/-- A 15-card working table: ten cost-1 cards and five cost-2 cards, all
inside their cost caps.  `W1` and `W2` are the under-performing cards the
tuner will move from the cost-2 bucket to the cost-1 bucket. -/
def table15 : List Card :=
  [⟨"A1", "Standard", 1, 100, 100⟩, ⟨"A2", "Standard", 1, 100, 100⟩,
   ⟨"A3", "Standard", 1, 100, 100⟩, ⟨"A4", "Standard", 1, 100, 100⟩,
   ⟨"A5", "Standard", 1, 100, 100⟩, ⟨"A6", "Standard", 1, 100, 100⟩,
   ⟨"A7", "Standard", 1, 100, 100⟩, ⟨"A8", "Standard", 1, 100, 100⟩,
   ⟨"A9", "Standard", 1, 100, 100⟩, ⟨"A10", "Standard", 1, 100, 100⟩,
   ⟨"W1", "Standard", 2, 150, 150⟩, ⟨"W2", "Standard", 2, 150, 150⟩,
   ⟨"V1", "Standard", 2, 150, 150⟩, ⟨"V2", "Standard", 2, 150, 150⟩,
   ⟨"V3", "Standard", 2, 150, 150⟩]

/-- Iteration statistics in which `W1` and `W2` each have 5 plays, 0 wins
and 0 total damage: far enough below the target win rate that the tuner
proposes a cost decrease for each of them. -/
def stats2 : List CardStats :=
  [⟨"W1", "Standard", 0, 5, 0⟩, ⟨"W2", "Standard", 0, 5, 0⟩]

end Balance

/-! ## Theorems -/

/-- C9: for every character and every damage amount, `take_damage` leaves
`current_health = max 0 (previous − amount)` and returns the pre-clamp delta
(previous health minus new health). -/
theorem take_damage_clamps_and_returns_delta (c : Character) (amount : Int) :
    (c.take_damage amount).2.current_health = max 0 (c.current_health - amount) ∧
    (c.take_damage amount).1 = c.current_health - (c.take_damage amount).2.current_health := by
  unfold Character.take_damage
  constructor
  · simp only
    omega
  · simp only
    omega

/-- C10: for every character and every non-negative amount, `heal` leaves the
character's observable state completely unchanged (it writes
`min def_val (def_val + amount) = def_val` back into `def_val` and touches
nothing else). -/
theorem heal_is_noop (c : Character) (amount : Int) (h : 0 ≤ amount) :
    c.heal amount = c := by
  unfold Character.heal
  have hmin : min c.def_val (c.def_val + amount) = c.def_val := by omega
  rw [hmin]

/-- Witness for C10 at a concrete character and amount 7. -/
theorem heal_is_noop_witness :
    (0 : Int) ≤ 7 ∧
      (Character.heal ⟨"Yuji Itadori", "Standard", 2, 300, 250, "", 250, 180, 3, 1, 600, []⟩ 7
        = ⟨"Yuji Itadori", "Standard", 2, 300, 250, "", 250, 180, 3, 1, 600, []⟩) :=
  ⟨by norm_num,
    heal_is_noop ⟨"Yuji Itadori", "Standard", 2, 300, 250, "", 250, 180, 3, 1, 600, []⟩ 7
      (by norm_num)⟩

/-- C1: because `best_balance_score` is initialized to `float('inf')` and the
update guard is `balance_score > best_balance_score`, no finite iteration
score ever triggers the snapshot: for every sequence of iterations the run
returns `None` instead of a best-scoring card table. -/
theorem run_balance_iterations_returns_none (its : List (ℚ × List Balance.Card)) :
    Balance.run_balance_iterations its = none := by
  have hstep : ∀ it : ℚ × List Balance.Card,
      Balance.stepIteration ⟨⊤, none⟩ it = ⟨⊤, none⟩ := by
    intro it
    unfold Balance.stepIteration
    simp only
    rw [if_neg]
    exact not_top_lt
  unfold Balance.run_balance_iterations
  suffices h : ∀ l : List (ℚ × List Balance.Card),
      l.foldl Balance.stepIteration ⟨⊤, none⟩ = ⟨⊤, none⟩ by
    rw [h its]
  intro l
  induction l with
  | nil => rfl
  | cons x xs ih =>
    rw [List.foldl_cons, hstep x, ih]

unseal Rat.mul Rat.inv Rat.sub Rat.add in
/-- C3 counterexample: the cost-cap scaling pass is not idempotent.  For the
one-card table (cost 1, ATK 100, DEF 1000) the first pass yields
(ATK 100, DEF 200) — still over the 200-point cap because of rounding and
the 100 floor — and the second pass rescales it to (ATK 100, DEF 150). -/
theorem normalizePass_not_idempotent :
    Balance.normalizePass (Balance.normalizePass [⟨"Mahito", "Standard", 1, 100, 1000⟩]) ≠
      Balance.normalizePass [⟨"Mahito", "Standard", 1, 100, 1000⟩] := by
  decide

/-- C3 (amended): the pass leaves unchanged every table whose cards already
satisfy the cost cap `ATK + DEF ≤ cost × 200`; in particular it is
idempotent on such tables.  (On general tables the rounding floor can leave
a scaled card above its cap, so a second application changes it again.) -/
theorem normalizePass_fixes_capped_tables (t : List Balance.Card)
    (h : ∀ c ∈ t, c.atk + c.def_ ≤ c.cost * 200) :
    Balance.normalizePass t = t := by
  induction t with
  | nil => rfl
  | cons c rest ih =>
    have hc := h c (List.mem_cons_self c rest)
    have hrest : ∀ x ∈ rest, x.atk + x.def_ ≤ x.cost * 200 := by
      intro x hx
      exact h x (List.mem_cons_of_mem c hx)
    have hcard : Balance.normalizeCard c = c := by
      unfold Balance.normalizeCard Balance.get_max_total_stats
      simp only [if_neg (by omega : ¬ c.atk + c.def_ > c.cost * 200)]
    calc Balance.normalizePass (c :: rest)
        = Balance.normalizeCard c :: Balance.normalizePass rest := rfl
      _ = c :: rest := by rw [hcard, ih hrest]

/-- Witness for the amended C3 at a concrete in-cap table. -/
theorem normalizePass_fixes_capped_tables_witness :
    (∀ c ∈ [(⟨"Todo", "Standard", 2, 150, 200⟩ : Balance.Card)],
        c.atk + c.def_ ≤ c.cost * 200) ∧
      Balance.normalizePass [(⟨"Todo", "Standard", 2, 150, 200⟩ : Balance.Card)] =
        [(⟨"Todo", "Standard", 2, 150, 200⟩ : Balance.Card)] :=
  ⟨by decide, normalizePass_fixes_capped_tables _ (by decide)⟩

/-- C5: for the single-card pool of the degraded-path scenario (one cost-1
card with ATK 100, DEF 100), the distribution phase of
`Deck.build_initial_deck` stops at 3 selected copies (the duplicate cap),
and the relaxed fill loop `while len(selected_cards) < self.size` then makes
no progress: after any number of iterations the deck still holds 3 < 40
cards, so the loop never terminates and `build` never returns a deck. -/
theorem deck_fill_loop_never_fills (n : Nat) :
    ((Deck.fillStep Deck.lonePool)^[n] (Deck.distPhase Deck.lonePool)).selected.length = 3 ∧
      3 < 40 := by
  have hfix : Deck.fillStep Deck.lonePool (Deck.distPhase Deck.lonePool) =
      Deck.distPhase Deck.lonePool := by decide
  rw [Function.iterate_fixed hfix n]
  exact ⟨by decide, by norm_num⟩

/-- C2: every call of the battle-side `get_ultimate_ability` raises
`TypeError` (the dict literal in its body passes the unsupported `cooldown`
keyword to `UltimateAbility`), so the per-attacker `try/except` of
`_process_actions` turns the whole combat action into a no-op: even for an
attacker listed in the ultimate table (`Gojo Satoru`, `Standard`) with a
living defending field character and energy (10) ≥ ultimate cost (1), the
ultimate never activates — no target is hit, no energy is debited, no
`ultimate_damage` is recorded, no usage count is incremented, and the basic
attack is not merely skipped but also never happens. -/
theorem ultimate_path_never_activates :
    Battle.get_ultimate_ability "Gojo Satoru" "Standard" =
      .error "TypeError: UltimateAbility.__init__() got an unexpected keyword argument cooldown" ∧
    livingDefender.is_alive = true ∧
    gojoAttacker.energy ≥ gojoAttacker.ultimate_energy_cost ∧
    Battle.combatStep gojoAttacker defendingPlayer emptyStats =
      (gojoAttacker, defendingPlayer, emptyStats) :=
  ⟨rfl, rfl, by decide, rfl⟩

/-- C6: a character whose current health has reached 0 is not destroyed: a
full turn-pair of the battle loop leaves the dead character on its owner's
field (where later combat sub-phases still iterate over it and can target
it) and never moves anything to the graveyard (`Deck.send_to_graveyard` has
no caller in the battle loop). -/
theorem dead_character_stays_on_field :
    ∃ st' : Battle.BattleState,
      Battle.battlePair deadCharState = .inr st' ∧
      deadDefender ∈ st'.p2.field ∧
      deadDefender.is_alive = false ∧
      st'.p2.graveyard = [] ∧
      st'.p1.graveyard = [] := by
  refine ⟨{ p1 := ⟨"Player 1", [], [], [], [gojoAttacker], 2000, 2, 10⟩
            p2 := ⟨"Player 2", [], [], [], [deadDefender], 2000, 2, 10⟩
            placements1 := 0
            placements2 := 0
            stats := emptyStats }, rfl, ?_, ?_, ?_, ?_⟩ <;> decide

/-- C7: if the battle loop completes its 50 turn-pairs with no winner, the
result of `simulate_battle` is decided by the final state alone: the player
with strictly greater life points wins, and an exact tie deterministically
yields player 2 (`return self.player1 if self.player1.life_points >
self.player2.life_points else self.player2`). -/
theorem turn_cap_winner (st fin : Battle.BattleState)
    (h : Battle.runPairs st 50 = .inr fin) :
    (fin.p1.life_points > fin.p2.life_points → Battle.simulate_battle st = .p1) ∧
    (fin.p2.life_points > fin.p1.life_points → Battle.simulate_battle st = .p2) ∧
    (fin.p1.life_points = fin.p2.life_points → Battle.simulate_battle st = .p2) := by
  refine ⟨fun hgt => ?_, fun hlt => ?_, fun heq => ?_⟩ <;>
    simp only [Battle.simulate_battle, h]
  · rw [if_pos hgt]
  · rw [if_neg (by omega)]
  · rw [if_neg (by omega)]

set_option maxRecDepth 10000 in
/-- Witness for C7: a battle between two empty decks reaches the 50-pair cap
with both players still at 2000 life points, and the tie goes to player 2. -/
theorem turn_cap_winner_witness :
    Battle.runPairs cappedState 50 = .inr cappedFinal ∧
      cappedFinal.p1.life_points = cappedFinal.p2.life_points ∧
      Battle.simulate_battle cappedState = .p2 :=
  ⟨by decide, by decide,
    (turn_cap_winner cappedState cappedFinal (by decide)).2.2 (by decide)⟩

/-- Helper: one `playStep` whose legality guard passes plays the card:
hand → field move, energy debit, placement increment. -/
theorem playStep_pass (a : Player) (plc : Nat) (st : Battle.Stats) (c : Character)
    (hmem : c ∈ a.hand) (hcost : c.cost ≤ a.energy) (hfield : a.field.length < 5) :
    Battle.playStep a plc st c =
      ({ a with hand := a.hand.erase c, field := a.field ++ [c], energy := a.energy - c.cost },
        plc + 1,
        if st.times_played.any (fun e => e.1 = c.name) then
          { st with times_played := Battle.bumpN st.times_played c.name 1 }
        else st) := by
  unfold Battle.playStep Player.play_card
  rw [if_pos ⟨hcost, hfield⟩, if_pos ⟨hmem, hcost, hfield⟩]

/-- Helper: one `playStep` whose legality guard fails changes nothing. -/
theorem playStep_fail (a : Player) (plc : Nat) (st : Battle.Stats) (c : Character)
    (h : ¬ (c.cost ≤ a.energy ∧ a.field.length < 5)) :
    Battle.playStep a plc st c = (a, plc, st) := by
  unfold Battle.playStep
  rw [if_neg h]

/-- C8: the playing phase attempts at most the first two hand cards whose
cost is within the player's energy, in hand order; every successful play —
and only a successful play — appends the card to the field, debits its cost
from the player's energy and increments the per-turn placement counter,
which therefore grows by at most 2. -/
theorem play_phase_attempts_first_two (p : Player) (placements : Nat) (stats : Battle.Stats) :
    ∃ played : List Character,
      played.Sublist ((p.hand.filter fun c => c.cost ≤ p.energy).take 2) ∧
      played.length ≤ 2 ∧
      (Battle.playPhase p placements stats).1.field = p.field ++ played ∧
      (Battle.playPhase p placements stats).2.1 = placements + played.length ∧
      (Battle.playPhase p placements stats).1.energy =
        p.energy - (played.map fun c => c.cost).sum := by
  unfold Battle.playPhase
  have hsubf : ∀ c ∈ (p.hand.filter fun c => decide (c.cost ≤ p.energy)).take 2,
      c ∈ p.hand ∧ c.cost ≤ p.energy := by
    intro c hc
    have hcf := List.take_subset 2 _ hc
    have := List.mem_filter.mp hcf
    exact ⟨this.1, of_decide_eq_true this.2⟩
  rcases hl : (p.hand.filter fun c => decide (c.cost ≤ p.energy)).take 2 with _ | ⟨a, l2⟩
  · refine ⟨[], by simp, by norm_num, ?_, ?_, ?_⟩ <;>
      simp [hl, Battle.playCards]
  · have ha := hsubf a (by rw [hl]; exact List.mem_cons_self a l2)
    by_cases hg1 : p.field.length < 5
    · -- the first attempted card is played
      have hstep1 := playStep_pass p placements stats a ha.1 ha.2 hg1
      rcases l2 with _ | ⟨b, l3⟩
      · refine ⟨[a], by rw [hl], by norm_num, ?_, ?_, ?_⟩ <;>
          simp [hl, Battle.playCards, hstep1]
      · have hl3 : l3 = [] := by
          have hlen := List.length_take_le 2
            (p.hand.filter fun c => decide (c.cost ≤ p.energy))
          rw [hl] at hlen
          simp only [List.length_cons] at hlen
          exact List.eq_nil_of_length_eq_zero (by omega)
        subst hl3
        have hb := hsubf b (by rw [hl]; exact List.mem_cons_of_mem a (List.mem_cons_self b []))
        have hbhand : b ∈ p.hand.erase a := by
          by_cases hba : b = a
          · subst hba
            have hcnt2 : 2 ≤ p.hand.count b := by
              have h1 : List.count b [b, b] = 2 := by simp
              have h2 : List.count b ([b, b]) ≤
                  List.count b (p.hand.filter fun c => decide (c.cost ≤ p.energy)) := by
                rw [← hl]
                exact (List.take_sublist 2 _).count_le b
              have h3 : List.count b (p.hand.filter fun c => decide (c.cost ≤ p.energy)) ≤
                  List.count b p.hand :=
                (List.filter_sublist _).count_le b
              omega
            have : 1 ≤ (p.hand.erase b).count b := by
              rw [List.count_erase_self]
              omega
            exact List.count_pos_iff.mp (by omega)
          · exact (List.mem_erase_of_ne hba).mpr hb.1
        by_cases hg2 : b.cost ≤ p.energy - a.cost ∧ (p.field ++ [a]).length < 5
        · -- both attempted cards are played
          have hstep2 := playStep_pass
            ({ p with
                hand := p.hand.erase a
                field := p.field ++ [a]
                energy := p.energy - a.cost })
            (placements + 1)
            (if stats.times_played.any (fun e => e.1 = a.name) then
              { stats with times_played := Battle.bumpN stats.times_played a.name 1 }
            else stats)
            b hbhand hg2.1 hg2.2
          refine ⟨[a, b], by rw [hl], by norm_num, ?_, ?_, ?_⟩ <;>
            simp [hl, Battle.playCards, hstep1, hstep2]
          · omega
        · -- the second attempted card fails legality and is skipped
          have hstep2 := playStep_fail
            ({ p with
                hand := p.hand.erase a
                field := p.field ++ [a]
                energy := p.energy - a.cost })
            (placements + 1)
            (if stats.times_played.any (fun e => e.1 = a.name) then
              { stats with times_played := Battle.bumpN stats.times_played a.name 1 }
            else stats)
            b (by simpa using hg2)
          refine ⟨[a], by rw [hl]; exact (List.nil_sublist [b]).cons₂ a, by norm_num, ?_, ?_, ?_⟩ <;>
            simp [hl, Battle.playCards, hstep1, hstep2]
    · -- the field is full: every attempt fails the guard
      have hfail : ∀ (c : Character) (plc : Nat) (st : Battle.Stats),
          c.cost ≤ p.energy → Battle.playStep p plc st c = (p, plc, st) := by
        intro c plc st _
        exact playStep_fail p plc st c (fun h => hg1 h.2)
      rcases l2 with _ | ⟨b, l3⟩
      · refine ⟨[], by simp, by norm_num, ?_, ?_, ?_⟩ <;>
          simp [hl, Battle.playCards, hfail a _ _ ha.2]
      · have hl3 : l3 = [] := by
          have hlen := List.length_take_le 2
            (p.hand.filter fun c => decide (c.cost ≤ p.energy))
          rw [hl] at hlen
          simp only [List.length_cons] at hlen
          exact List.eq_nil_of_length_eq_zero (by omega)
        subst hl3
        have hb := hsubf b (by rw [hl]; exact List.mem_cons_of_mem a (List.mem_cons_self b []))
        refine ⟨[], by simp, by norm_num, ?_, ?_, ?_⟩ <;>
          simp [hl, Battle.playCards, hfail a _ _ ha.2, hfail b _ _ hb.2]

unseal Rat.mul Rat.inv Rat.sub Rat.add in
/-- C4 counterexample: one adjustment pass can push a cost bucket's share
beyond ±10% of the original distribution.  On the 15-card table `table15`
(shares 10/15 at cost 1 and 5/15 at cost 2), the under-performing cards `W1`
and `W2` are each individually allowed to move from cost 2 to cost 1 (a
single move shifts a bucket by 1/15 ≤ 1/10), both checks run against the
same pre-pass table, both adjustments are applied, and the cost-1 bucket
ends at 12/15 — a deviation of 2/15 > 1/10 from the original 10/15. -/
theorem cost_distribution_tolerance_violated :
    Balance.pyAbs
        (Balance.costShare
            (Balance.adjust_card_stats Balance.table15 Balance.table15 Balance.stats2
              (1/2) (1/20)) 1
          - Balance.costShare Balance.table15 1)
      > Balance.COST_DISTRIBUTION_TOL := by
  decide

/-- C4 (amended): every individual cost change produced by the scanning loop
of `adjust_card_stats` has passed the distribution check against the
pre-pass working table: moving that single card's bucket keeps every cost
bucket's simulated share within ±10% of the original distribution.  (The
checks of several cost changes in one pass all run against the same
pre-pass table and are then applied together, so the final distribution can
deviate by more than the tolerance, as the counterexample shows.) -/
theorem cost_change_individually_within_tolerance
    (orig t : List Balance.Card) (stats : List Balance.CardStats)
    (target tol : ℚ) (a : Balance.Adjustment)
    (hmem : a ∈ stats.filterMap (Balance.scanEntry orig (Balance.normalizePass t) target tol))
    (hcost : a.cost_adjust ≠ 0) :
    ∃ c : Balance.Card,
      (Balance.normalizePass t).get? a.card_idx = some c ∧
      (a.cost_adjust = 1 ∨ a.cost_adjust = -1) ∧
      ∀ bucket ∈ Balance.costBuckets,
        Balance.pyAbs (Balance.simShare (Balance.normalizePass t) c.cost a.cost_adjust bucket
            - Balance.costShare orig bucket) ≤ Balance.COST_DISTRIBUTION_TOL := by
  obtain ⟨e, he, hsome⟩ := List.mem_filterMap.mp hmem
  unfold Balance.scanEntry at hsome
  split at hsome
  · exact absurd hsome (by simp)
  split at hsome
  · exact absurd hsome (by simp)
  split at hsome
  · exact absurd hsome (by simp)
  rename_i x1 card_idx hidx x2 current_card hget
  dsimp only at hsome
  split at hsome
  · split at hsome
    · -- over-performing card
      split at hsome
      · split at hsome
        · -- cost increase proposed: the distribution check is in context
          rename_i hguard
          rw [Option.some.injEq] at hsome
          subst hsome
          refine ⟨current_card, hget, Or.inl rfl, ?_⟩
          intro bucket hbucket
          have hall := hguard.1
          unfold Balance.cost_change_allowed at hall
          rw [List.all_eq_true] at hall
          exact of_decide_eq_true (hall bucket hbucket)
        · -- conservative stat reduction: its cost_adjust is 0
          split at hsome
          · rw [Option.some.injEq] at hsome
            subst hsome
            exact absurd rfl hcost
          · exact absurd hsome (by simp)
      · exact absurd hsome (by simp)
    · -- under-performing card
      split at hsome
      · split at hsome
        · rename_i hguard
          rw [Option.some.injEq] at hsome
          subst hsome
          refine ⟨current_card, hget, Or.inr rfl, ?_⟩
          intro bucket hbucket
          have hall := hguard.1
          unfold Balance.cost_change_allowed at hall
          rw [List.all_eq_true] at hall
          exact of_decide_eq_true (hall bucket hbucket)
        · split at hsome
          · rw [Option.some.injEq] at hsome
            subst hsome
            exact absurd rfl hcost
          · exact absurd hsome (by simp)
      · exact absurd hsome (by simp)
  · exact absurd hsome (by simp)

unseal Rat.mul Rat.inv Rat.sub Rat.add in
/-- Witness for the amended C4: the scanning loop on `table15`/`stats2`
proposes the cost decrease `⟨10, -1, 0, 0⟩` for `W1`, and that single move
keeps every bucket within the tolerance. -/
theorem cost_change_individually_within_tolerance_witness :
    ((⟨10, -1, 0, 0⟩ : Balance.Adjustment) ∈
        Balance.stats2.filterMap
          (Balance.scanEntry Balance.table15 (Balance.normalizePass Balance.table15)
            (1/2) (1/20))) ∧
      (⟨10, -1, 0, 0⟩ : Balance.Adjustment).cost_adjust ≠ 0 ∧
      (∃ c : Balance.Card,
        (Balance.normalizePass Balance.table15).get?
            (⟨10, -1, 0, 0⟩ : Balance.Adjustment).card_idx = some c ∧
        ((⟨10, -1, 0, 0⟩ : Balance.Adjustment).cost_adjust = 1 ∨
          (⟨10, -1, 0, 0⟩ : Balance.Adjustment).cost_adjust = -1) ∧
        ∀ bucket ∈ Balance.costBuckets,
          Balance.pyAbs
              (Balance.simShare (Balance.normalizePass Balance.table15) c.cost
                  (⟨10, -1, 0, 0⟩ : Balance.Adjustment).cost_adjust bucket
                - Balance.costShare Balance.table15 bucket)
            ≤ Balance.COST_DISTRIBUTION_TOL) :=
  ⟨by decide, by decide,
    cost_change_individually_within_tolerance Balance.table15 Balance.table15 Balance.stats2
      (1/2) (1/20) ⟨10, -1, 0, 0⟩ (by decide) (by decide)⟩

end JJK
